import Mathlib

/-!
Verification of the distiller-update planning and apply engine.

This file shallowly embeds the core of the `distiller_update` Python package:

* `checker.py` (`UpdateChecker`): the synchronous planner/apply engine used by
  the daemon (`_validate_package_name`, `check_updates`, `apply`,
  `installed_version`, `candidate_version`, `_get_package_sizes`,
  `_save_result`, `_load_cached_result`).
* `apt.py` / `core.py` (`AptInterface.check_updates`, `UpdateChecker.check`):
  the asynchronous variant used by the CLI, including rebuild detection.
* `models.py`: the Pydantic data model (`Package`, `UpdateResult`, `Config`).

External commands are modelled by environments of oracles giving each
command's stdout/stderr/exit code; filesystem state is modelled explicitly.
Python exceptions that can actually escape are modelled with `Except`;
exceptions that the source catches are folded into the value-level results,
exactly as the handlers do.

String conventions: Python `str` is modelled by Lean `String`, and the
Python string operations used by the source (`strip`, `rstrip("]")`,
`split`, `split(sep, 1)`, `splitlines`, `startswith`, `lower`, containment)
are implemented below over the underlying character lists.  `splitlines`
is modelled for newline-separated text (the only separator apt output uses)
and `strip`/`split` use ASCII whitespace, which agrees with Python on all
inputs appearing here.
-/

/-! ### Python string primitives -/

/-- Rebuild a `String` from its character list. -/
def ofChars (l : List Char) : String := ⟨l⟩

/-- Python `str.strip()` on the character list: drop whitespace from both ends. -/
def stripChars (l : List Char) : List Char :=
  ((l.dropWhile Char.isWhitespace).reverse.dropWhile Char.isWhitespace).reverse

/-- Python `str.strip()`. -/
def pyStrip (s : String) : String := ofChars (stripChars s.data)

/-- Python `str.rstrip("]")`: remove all trailing right-bracket characters. -/
def pyRstripRB (s : String) : String :=
  ofChars ((s.data.reverse.dropWhile (fun c => c == ']')).reverse)

/-- Python `str.startswith(pat)`. -/
def pyStartswith (s pat : String) : Bool := pat.data.isPrefixOf s.data

/-- Python `str.lower()` (ASCII, which is all that apt output contains). -/
def pyLower (s : String) : String := ofChars (s.data.map Char.toLower)

/-- Find the first occurrence of the (nonempty) pattern in the list, returning
the characters before it and the characters after it. -/
def findPat (pat : List Char) : List Char → Option (List Char × List Char)
  | [] => none
  | c :: rest =>
    if pat.isPrefixOf (c :: rest) then some ([], (c :: rest).drop pat.length)
    else
      match findPat pat rest with
      | some (b, a) => some (c :: b, a)
      | none => none

/-- Python `pat in s` (substring containment, for nonempty `pat`). -/
def pyContains (s pat : String) : Bool := (findPat pat.data s.data).isSome

/-- Python `s.split(pat, 1)`: the text before the first occurrence of `pat`
and the text after it.  Callers in the source always check containment
first; when the pattern is absent we return `(s, "")`. -/
def pySplit1 (s pat : String) : String × String :=
  match findPat pat.data s.data with
  | some (b, a) => (ofChars b, ofChars a)
  | none => (s, "")

/-- Helper for `pySplitlines`: split a character list at newline characters. -/
def splitlinesAux : List Char → List Char → List (List Char)
  | [], acc => [acc.reverse]
  | c :: rest, acc =>
    if c == '\n' then acc.reverse :: splitlinesAux rest []
    else splitlinesAux rest (c :: acc)

/-- Python `str.splitlines()` for newline-separated text: no trailing empty
line is produced when the text ends with a newline, and the empty string
yields no lines. -/
def pySplitlines (s : String) : List String :=
  if s.data.isEmpty then []
  else
    let parts := splitlinesAux s.data []
    let parts := if s.data.getLast? = some '\n' then parts.dropLast else parts
    parts.map ofChars

/-- Helper for `pySplitWs`: tokenize at whitespace, dropping empty tokens. -/
def wordsAux : List Char → List Char → List (List Char)
  | [], acc => if acc.isEmpty then [] else [acc.reverse]
  | c :: rest, acc =>
    if c.isWhitespace then
      if acc.isEmpty then wordsAux rest [] else acc.reverse :: wordsAux rest []
    else wordsAux rest (c :: acc)

/-- Python `str.split()` with no argument: split at runs of whitespace,
discarding empty tokens. -/
def pySplitWs (s : String) : List String := (wordsAux s.data []).map ofChars

/-- Numeric value of a digit list. -/
def digitsVal (l : List Char) : Int :=
  l.foldl (fun n c => n * 10 + (Int.ofNat (c.toNat - Char.toNat '0'))) 0

/-- Python `int(s)` on the already-stripped strings the source feeds it:
an optional sign followed by at least one digit; anything else raises
`ValueError`, modelled as `none`. -/
def pyInt? (s : String) : Option Int :=
  match s.data with
  | [] => none
  | '-' :: ds => if ds ≠ [] ∧ ds.all Char.isDigit then some (-(digitsVal ds)) else none
  | '+' :: ds => if ds ≠ [] ∧ ds.all Char.isDigit then some (digitsVal ds) else none
  | ds => if ds.all Char.isDigit then some (digitsVal ds) else none

/-- Python truthiness of an `str | None` value: `None` and `""` are falsy. -/
def truthyOpt : Option String → Bool
  | none => false
  | some s => s ≠ ""

/-! ### Package-name validation (`checker.py`, `VALID_PACKAGE_NAME` and
`_validate_package_name`) -/

/-- Character class `[a-z0-9]` of `VALID_PACKAGE_NAME`. -/
def lowerAlnum (c : Char) : Bool :=
  (decide ('a' ≤ c) && decide (c ≤ 'z')) || (decide ('0' ≤ c) && decide (c ≤ '9'))

/-- Character class `[a-z0-9+\-.]` of `VALID_PACKAGE_NAME`. -/
def nameTailChar (c : Char) : Bool :=
  lowerAlnum c || c == '+' || c == '-' || c == '.'

/-- The regular expression `^[a-z0-9][a-z0-9+\-.]+$` (`VALID_PACKAGE_NAME`):
one character from `[a-z0-9]` followed by one or more characters from
`[a-z0-9+\-.]`. -/
def validPackageName (s : String) : Bool :=
  match s.data with
  | [] => false
  | c :: cs => lowerAlnum c && !cs.isEmpty && cs.all nameTailChar

/-- The validator `_validate_package_name`: strip the name, then reject it
(`ValueError`, modelled as `none`) when it is empty, longer than 255
characters, or fails to match `VALID_PACKAGE_NAME`; otherwise return the
stripped name. -/
def validatePackageName (s : String) : Option String :=
  let t := pyStrip s
  if t = "" ∨ t.length > 255 ∨ ¬validPackageName t then none else some t

/-! ### Data model (`models.py`)

`Package` carries exactly the fields declared on the Pydantic model in
`models.py`: `name`, `current_version` (absent means not installed),
`new_version` and `size`.  Note that `models.py` declares no
`update_type`, `installed_checksum` or `repository_checksum` field, and
`Config` declares no `apt_cache_dir` field; Pydantic silently drops such
extra keyword arguments at construction and raises `AttributeError` when
they are read, which matters for `apt.py` and for
`checker._get_apt_cache_options` below. -/

structure Package where
  name : String
  current_version : Option String
  new_version : String
  size : Int
deriving DecidableEq, Repr

/-- Derived `Package.action_type`: no current version means `Install`,
equal versions mean `Reinstall`, otherwise `Upgrade`. -/
def Package.action_type (p : Package) : String :=
  match p.current_version with
  | none => "Install"
  | some v => if v = p.new_version then "Reinstall" else "Upgrade"

/-- The fields of `models.Config` that the planner reads. -/
structure Config where
  distribution : String
  policy_allow_new_packages : Bool
  bundle_default : List String
  apt_source_file : Option String
deriving Repr

/-- `models.UpdateResult`.  Datetimes are abstracted as integer timestamps:
`model_dump(mode="json")` renders a `datetime` as an ISO-8601 string and
Pydantic parses it back losslessly, so the embedding keeps the timestamp
itself. -/
structure UpdateResult where
  packages : List Package
  checked_at : Int
  distribution : String
deriving DecidableEq, Repr

/-- Python exceptions that can escape the modelled code. -/
inductive PyErr where
  /-- `AttributeError`: `config.apt_cache_dir` read by
  `checker._get_apt_cache_options`, but `models.Config` has no such field. -/
  | attrAptCacheDir
  /-- `AttributeError`: `pkg.update_type` read by `apt.check_updates`, but
  `models.Package` has no such field. -/
  | attrUpdateType
deriving DecidableEq, Repr

/-! ### Command oracles for the synchronous checker (`checker.py`)

`_run_command` never raises: failures and timeouts come back as a nonzero
exit code with synthetic stderr.  Each external command the checker runs is
therefore an oracle giving its stdout and exit code. -/

structure CheckerEnv where
  /-- Whether `apt-get update` succeeds (its failure is only logged). -/
  updateOk : Bool
  /-- stdout of `apt list --upgradable`. -/
  listOut : String
  /-- exit code of `apt list --upgradable`. -/
  listCode : Int
  /-- stdout of `dpkg-query -W -f=${Version} name`, per package name. -/
  dpkgOut : String → String
  /-- exit code of `dpkg-query`, per package name. -/
  dpkgCode : String → Int
  /-- stdout of `apt-cache policy name`, per package name. -/
  policyOut : String → String
  /-- exit code of `apt-cache policy name`, per package name. -/
  policyCode : String → Int
  /-- stdout of the batched `apt-cache show name1 name2 ...`. -/
  showOut : List String → String
  /-- exit code of the batched `apt-cache show`. -/
  showCode : List String → Int
  /-- timestamp of `datetime.now()` during this check. -/
  now : Int

/-- `UpdateChecker.installed_version`: the stripped stdout of
`dpkg-query -W -f=${Version}` when the command succeeded and printed
something, else `None`. -/
def installedVersion (env : CheckerEnv) (name : String) : Option String :=
  if env.dpkgCode name = 0 ∧ pyStrip (env.dpkgOut name) ≠ "" then
    some (pyStrip (env.dpkgOut name))
  else none

/-- Scan `apt-cache policy` output for the first line starting (after a
strip) with `Candidate:`; return the text after the colon, stripped, unless
it is `(none)` or `none`.  Later lines are not examined. -/
def findCandidate : List String → Option String
  | [] => none
  | l :: ls =>
    let l := pyStrip l
    if pyStartswith l "Candidate:" then
      let cand := pyStrip (pySplit1 l ":").2
      if cand = "(none)" ∨ cand = "none" then none else some cand
    else findCandidate ls

/-- `UpdateChecker.candidate_version`: `None` when the policy query fails,
otherwise the first `Candidate:` line as above. -/
def candidateVersion (env : CheckerEnv) (name : String) : Option String :=
  if env.policyCode name ≠ 0 then none
  else findCandidate (pySplitlines (env.policyOut name))

/-! ### Batched size query (`UpdateChecker._get_package_sizes`) -/

/-- Python dict assignment `sizes[k] = v`: replace an existing binding in
place, else append. -/
def dictSet (d : List (String × Int)) (k : String) (v : Int) : List (String × Int) :=
  if d.any (fun e => e.1 == k) then
    d.map (fun e => if e.1 == k then (e.1, v) else e)
  else d ++ [(k, v)]

/-- Python `sizes.get(k, 0)`. -/
def dictGetD (d : List (String × Int)) (k : String) : Int :=
  match d.find? (fun e => e.1 == k) with
  | some e => e.2
  | none => 0

/-- One line of the `apt-cache show` parse loop: track the current
`Package:` stanza and record `Size:` values (unparsable sizes become 0). -/
def sizesStep (st : Option String × List (String × Int)) (line : String) :
    Option String × List (String × Int) :=
  let l := pyStrip line
  if pyStartswith l "Package:" then
    (some (pyStrip (pySplit1 l ":").2), st.2)
  else if pyStartswith l "Size:" ∧ truthyOpt st.1 then
    let sizeStr := pyStrip (pySplit1 l ":").2
    let v := match pyInt? sizeStr with | some n => n | none => 0
    (st.1, dictSet st.2 (st.1.getD "") v)
  else st

/-- `UpdateChecker._get_package_sizes`: one batched `apt-cache show` for all
names; on failure every name gets size 0; after parsing, names without a
`Size:` entry are filled in with 0. -/
def getPackageSizes (env : CheckerEnv) (names : List String) : List (String × Int) :=
  if names.isEmpty then []
  else if env.showCode names ≠ 0 then names.map (fun n => (n, 0))
  else
    let sizes := ((pySplitlines (env.showOut names)).foldl sizesStep (none, [])).2
    names.foldl (fun sz n => if sz.any (fun e => e.1 == n) then sz else sz ++ [(n, 0)]) sizes

/-! ### Parsing `apt list --upgradable` (`UpdateChecker.check_updates`) -/

/-- Parse one line of `apt list --upgradable` output, as the loop body of
`check_updates` does: skip empty lines, the `Listing` header, lines without
a slash or without the `[upgradable from:` marker or with fewer than two
fields; split name/distribution; validate the name; apply the
distribution filter (skipped when `apt_source_file` is configured).
Returns the dict key (the validated name) and the `Package` built with the
old/new versions and size 0. -/
def parseLine (cfg : Config) (line : String) : Option (String × Package) :=
  if line = "" ∨ pyStartswith line "Listing" ∨ ¬pyContains line "/" then none
  else if ¬pyContains line "[upgradable from:" then none
  else
    let pr := pySplit1 line "[upgradable from:"
    let old_version := pyStrip (pyRstripRB pr.2)
    match pySplitWs pr.1 with
    | name_dist :: new_version :: _ =>
      let nd :=
        if pyContains name_dist "/" then pySplit1 name_dist "/"
        else (name_dist, "")
      match validatePackageName nd.1 with
      | none => none
      | some name =>
        if cfg.apt_source_file = none ∧ cfg.distribution ≠ pyLower nd.2 then none
        else some (name, ⟨name, some old_version, new_version, 0⟩)
    | _ => none

/-- Python `name in packages_dict`. -/
def dictHas (d : List (String × Package)) (k : String) : Bool :=
  d.any (fun e => e.1 == k)

/-- One iteration of the parse loop of `check_updates`: a line that parses
to a new name is appended to the insertion-ordered dict `packages_dict`;
an already-present name keeps its first occurrence. -/
def parseStep (cfg : Config) (d : List (String × Package)) (line : String) :
    List (String × Package) :=
  match parseLine cfg line with
  | some kp => if dictHas d kp.1 then d else d ++ [kp]
  | none => d

/-- The parse loop of `check_updates`: fold the parsed lines into the
insertion-ordered dict `packages_dict`, keeping the first occurrence of
each name. -/
def parseUpgradable (cfg : Config) (lines : List String) : List (String × Package) :=
  lines.foldl (parseStep cfg) []

/-- One iteration of the curated-bundle loop of `check_updates`: a bundle
name that is not already a dict key, is not installed, and has a truthy
candidate version is added as an install action (no current version). -/
def curatedStep (env : CheckerEnv) (d : List (String × Package)) (name : String) :
    List (String × Package) :=
  if dictHas d name then d
  else
    match installedVersion env name with
    | some _ => d
    | none =>
      match candidateVersion env name with
      | some cand =>
        if cand ≠ "" then d ++ [(name, ⟨name, none, cand, 0⟩)] else d
      | none => d

/-- The curated-bundle loop of `check_updates`, run only when policy
allows new packages. -/
def addCurated (cfg : Config) (env : CheckerEnv) (d : List (String × Package)) :
    List (String × Package) :=
  if cfg.policy_allow_new_packages then
    cfg.bundle_default.foldl (curatedStep env) d
  else d

/-! ### The plan ordering

`check_updates` sorts with `key=lambda p: (p.current_version is None, p.name)`:
upgrades (current version present) come before new installs, and each group
is ordered alphabetically by name.  Python `sorted` is a stable sort by this
key; since dict keys are unique the result is the unique sorted permutation,
which `List.insertionSort` (also stable) computes as well. -/

/-- First component of the sort key: 0 for upgrades, 1 for new installs. -/
def pkgRank (p : Package) : Nat := if p.current_version = none then 1 else 0

/-- Python's lexicographic string comparison on code points, over the
character lists. -/
def charListLe : List Char → List Char → Bool
  | [], _ => true
  | _ :: _, [] => false
  | a :: as, b :: bs =>
    if a.toNat = b.toNat then charListLe as bs
    else a.toNat < b.toNat

/-- The sort order of the plan: lexicographic on `(pkgRank, name)`, as
Python compares the key tuples `(p.current_version is None, p.name)`. -/
def pkgLe (p q : Package) : Prop :=
  pkgRank p < pkgRank q ∨
    (pkgRank p = pkgRank q ∧ charListLe p.name.data q.name.data = true)

instance : DecidableRel pkgLe := fun p q =>
  inferInstanceAs
    (Decidable (pkgRank p < pkgRank q ∨
      (pkgRank p = pkgRank q ∧ charListLe p.name.data q.name.data = true)))

/-- The lexicographic comparison is total. -/
def charListLe_total : ∀ as bs, charListLe as bs = true ∨ charListLe bs as = true
  | [], _ => Or.inl rfl
  | _ :: _, [] => Or.inr rfl
  | a :: as, b :: bs => by
    unfold charListLe
    rcases Nat.lt_trichotomy a.toNat b.toNat with h | h | h
    · left
      rw [if_neg (by omega)]
      simpa using h
    · rw [if_pos h, if_pos h.symm]
      exact charListLe_total as bs
    · right
      rw [if_neg (by omega)]
      simpa using h

/-- The lexicographic comparison is transitive. -/
def charListLe_trans : ∀ as bs cs, charListLe as bs = true →
    charListLe bs cs = true → charListLe as cs = true
  | [], _, _ => fun _ _ => rfl
  | _ :: _, [], _ => fun h _ => by simp [charListLe] at h
  | _ :: _, _ :: _, [] => fun _ h => by simp [charListLe] at h
  | a :: as, b :: bs, c :: cs => fun h1 h2 => by
    unfold charListLe at h1 h2 ⊢
    by_cases hab : a.toNat = b.toNat
    · rw [if_pos hab] at h1
      by_cases hbc : b.toNat = c.toNat
      · rw [if_pos hbc] at h2
        rw [if_pos (hab.trans hbc)]
        exact charListLe_trans as bs cs h1 h2
      · rw [if_neg hbc] at h2
        simp only [decide_eq_true_eq] at h2
        rw [if_neg (by omega)]
        simpa using by omega
    · rw [if_neg hab] at h1
      simp only [decide_eq_true_eq] at h1
      by_cases hbc : b.toNat = c.toNat
      · rw [if_neg (by omega)]
        simpa using by omega
      · rw [if_neg hbc] at h2
        simp only [decide_eq_true_eq] at h2
        rw [if_neg (by omega)]
        simpa using by omega

instance : IsTotal Package pkgLe where
  total p q := by
    rcases Nat.lt_trichotomy (pkgRank p) (pkgRank q) with h | h | h
    · exact Or.inl (Or.inl h)
    · rcases charListLe_total p.name.data q.name.data with h2 | h2
      · exact Or.inl (Or.inr ⟨h, h2⟩)
      · exact Or.inr (Or.inr ⟨h.symm, h2⟩)
    · exact Or.inr (Or.inl h)

instance : IsTrans Package pkgLe where
  trans p q r hpq hqr := by
    rcases hpq with h1 | ⟨e1, n1⟩
    · rcases hqr with h2 | ⟨e2, _⟩
      · exact Or.inl (h1.trans h2)
      · exact Or.inl (e2 ▸ h1)
    · rcases hqr with h2 | ⟨e2, n2⟩
      · exact Or.inl (e1 ▸ h2)
      · exact Or.inr ⟨e1.trans e2, charListLe_trans _ _ _ n1 n2⟩

/-! ### `UpdateChecker.check_updates` and `UpdateChecker.check` -/

/-- The local variable `packages` of `check_updates`: the dict values
(upgrades first-occurrence-deduplicated, then curated installs) in sorted
order. -/
def planPackages (cfg : Config) (env : CheckerEnv) : List Package :=
  List.insertionSort pkgLe
    ((addCurated cfg env (parseUpgradable cfg (pySplitlines env.listOut))).map (fun e => e.2))

/-- The pure body of `check_updates` once the cache options did not raise:
a failed `apt list` yields the empty plan; otherwise parse the upgradable
lines, add curated installs, sort, and (when the plan is nonempty) patch
in the batched sizes (`sizes.get(name, 0)`). -/
def checkUpdatesCore (cfg : Config) (env : CheckerEnv) : List Package :=
  if env.listCode ≠ 0 then []
  else if (planPackages cfg env).isEmpty then planPackages cfg env
  else
    (planPackages cfg env).map
      (fun p =>
        { p with
          size :=
            dictGetD
              (getPackageSizes env ((planPackages cfg env).map (fun q => q.name)))
              p.name })

/-- `UpdateChecker.check_updates` (with the default `refresh=True`): when
`apt_source_file` is truthy (set and nonempty — `_get_apt_cache_options`
and `_update_cache` test it with Python truthiness, so `None` and `""`
both skip the isolated-cache options), `_update_cache` and the
list-command construction call `_get_apt_cache_options`, which reads the
nonexistent `config.apt_cache_dir` attribute and raises `AttributeError`;
the parse loop and curated loop never raise. -/
def checkUpdates (cfg : Config) (env : CheckerEnv) : Except PyErr (List Package) :=
  if truthyOpt cfg.apt_source_file then .error .attrAptCacheDir
  else .ok (checkUpdatesCore cfg env)

/-- `UpdateChecker.check` (the synchronous checker): build the
`UpdateResult`, save it to cache and notify (both of which catch their own
exceptions); any exception raised by `check_updates` is logged and
re-raised to the caller. -/
def checkerCheck (cfg : Config) (env : CheckerEnv) : Except PyErr UpdateResult :=
  match checkUpdates cfg env with
  | .ok ps => .ok ⟨ps, env.now, cfg.distribution⟩
  | .error e => .error e

/-! ### The apply engine (`UpdateChecker.apply`) -/

/-- One external command issued by `apply`, with its full argument list,
recorded in order of execution. -/
inductive Cmd where
  /-- `apt-get update` (full system cache, `force_full_update=True`). -/
  | aptGetUpdate
  /-- An `apt-get install` invocation with the given arguments. -/
  | aptGetInstall (args : List String)
  /-- A `dpkg-query -W -f=${Version} name` verification query. -/
  | dpkgQueryVersion (name : String)
deriving DecidableEq, Repr

/-- One element of the `results` list built by the verification loop. -/
structure VerifyEntry where
  name : String
  installed : Option String
  expected : String
deriving DecidableEq, Repr

/-- The dict `apply` returns (the LED status key, which only mirrors the
excluded LED hardware indication, is omitted). -/
structure ApplyRes where
  ok : Bool
  rc : Int
  error : Option String
  results : List VerifyEntry
deriving DecidableEq, Repr

/-- Command oracles for one `apply` call. -/
structure ApplyEnv where
  /-- Whether the host-wide lock file `/run/distiller-update.lock` is
  already held by another holder: `flock(LOCK_EX | LOCK_NB)` then raises
  `BlockingIOError` instead of blocking. -/
  lockHeld : Bool
  /-- Exit code of `apt-get update` (discarded by `apply`). -/
  updateCode : Int
  /-- Exit code of the bulk `apt-get install --only-upgrade` invocation. -/
  upgradeCode : Int
  /-- Exit code of the bulk `apt-get install` invocation. -/
  installCode : Int
  /-- stdout of the post-install `dpkg-query`, per package name. -/
  dpkgAfterOut : String → String
  /-- exit code of the post-install `dpkg-query`, per package name. -/
  dpkgAfterCode : String → Int

/-- `installed_version` as called by the verification loop, against the
post-install state. -/
def installedAfter (env : ApplyEnv) (name : String) : Option String :=
  if env.dpkgAfterCode name = 0 ∧ pyStrip (env.dpkgAfterOut name) ≠ "" then
    some (pyStrip (env.dpkgAfterOut name))
  else none

/-- The `-o Dpkg::Options::=--force-confnew` options passed to both
install invocations. -/
def dpkgOpts : List String := ["-o", "Dpkg::Options::=--force-confnew"]

/-- `UpdateChecker.apply`: with the lock already held, return the typed
failure without executing anything.  Otherwise refresh the full system
cache, partition the actions into an upgrade set (truthy
`current_version`) and an install set (`current_version is None`), issue
at most one bulk invocation per set (`rc` is the max of their exit codes),
then re-query every action's installed version; a mismatch marks the whole
apply failed (`rc or 2`) while still recording one entry per action.  The
second component is the trace of package-manager commands executed. -/
def applyFn (env : ApplyEnv) (actions : List Package) : ApplyRes × List Cmd :=
  if env.lockHeld then
    (⟨false, 1, some "Another update is running", []⟩, [])
  else
    let toUpgrade := actions.filter (fun a => truthyOpt a.current_version)
    let toInstall := actions.filter (fun a => a.current_version = none)
    let upArgs := toUpgrade.map (fun p => p.name ++ "=" ++ p.new_version)
    let inArgs := toInstall.map (fun p => p.name ++ "=" ++ p.new_version)
    let rc1 : Int := if upArgs.isEmpty then 0 else max 0 env.upgradeCode
    let cmds1 : List Cmd :=
      if upArgs.isEmpty then []
      else [.aptGetInstall (["apt-get", "install", "-y", "--only-upgrade"] ++ dpkgOpts ++ upArgs)]
    let rc2 : Int := if inArgs.isEmpty then rc1 else max rc1 env.installCode
    let cmds2 : List Cmd :=
      if inArgs.isEmpty then []
      else [.aptGetInstall (["apt-get", "install", "-y"] ++ dpkgOpts ++ inArgs)]
    let entries := actions.map (fun p => VerifyEntry.mk p.name (installedAfter env p.name) p.new_version)
    let ok := entries.all (fun e => e.installed == some e.expected)
    let rc : Int := if ok then rc2 else if rc2 = 0 then 2 else rc2
    (⟨ok, rc, none, entries⟩,
      [Cmd.aptGetUpdate] ++ cmds1 ++ cmds2 ++ actions.map (fun p => Cmd.dpkgQueryVersion p.name))

/-! ### The asynchronous variant (`apt.py` / `core.py`)

`AptInterface.check_updates` takes the upgradable list (from
`get_upgradable_packages`), fetches the repository checksum index, and
scans the installed Pamir packages for same-version checksum mismatches.
The upgradable list and the oracles below summarise the commands and HTTP
fetch it performs. -/

structure AptEnv where
  /-- The parsed repository `Packages.gz` index from
  `fetch_repository_checksums`: name to (version to MD5); a fetch or parse
  failure is the empty index. -/
  repoChecksums : List (String × List (String × String))
  /-- `_get_all_installed_pamir_packages`: installed (name, version) pairs
  whose name contains distiller/pamir/vibe. -/
  installedPamir : List (String × String)
  /-- `get_installed_checksum`, best effort. -/
  installedChecksum : String → Option String
  /-- `_get_package_size name version`, best effort. -/
  pkgSize : String → String → Int
  /-- timestamp of `datetime.now()` during this check. -/
  now : Int

/-- Lookup in the checksum index (Python `dict` membership plus access). -/
def idxFind {α : Type} (d : List (String × α)) (k : String) : Option α :=
  (d.find? (fun e => e.1 == k)).map (fun e => e.2)

/-- The rebuild-detection loop of `AptInterface.check_updates` (lines
352-388): for each installed Pamir package whose name is not already in
the accumulating package list, when the repository lists the same
installed version with a truthy checksum differing from the truthy locally
resolved checksum, append a same-version action.  `apt.py` passes
`installed_checksum`, `repository_checksum` and `update_type="rebuild"` to
the `Package` constructor, but `models.Package` declares none of those
fields, so Pydantic drops them silently; the appended action carries only
the four declared fields. -/
def rebuildStep (env : AptEnv) (packages : List Package) (ip : String × String) :
    List Package :=
  if packages.any (fun p => p.name == ip.1) then packages
  else
    match idxFind env.repoChecksums ip.1 with
    | none => packages
    | some versions =>
      match idxFind versions ip.2 with
      | none => packages
      | some repoMd5 =>
        match env.installedChecksum ip.1 with
        | none => packages
        | some instMd5 =>
          if instMd5 ≠ "" ∧ repoMd5 ≠ "" ∧ instMd5 ≠ repoMd5 then
            packages ++ [⟨ip.1, some ip.2, ip.2, env.pkgSize ip.1 ip.2⟩]
          else packages

def addRebuilds (ups : List Package) (env : AptEnv) : List Package :=
  env.installedPamir.foldl (rebuildStep env) ups

/-- `AptInterface.check_updates`: after the rebuild loop, the checksum
annotation loop reads `pkg.update_type` on every accumulated package;
`models.Package` has no `update_type` field, so the first package raises
`AttributeError`.  Only an empty plan survives to the final
`sorted(packages, key=lambda p: p.name)`. -/
def aptCheckUpdates (ups : List Package) (env : AptEnv) : Except PyErr (List Package) :=
  match addRebuilds ups env with
  | [] => .ok []
  | _ :: _ => .error .attrUpdateType

/-- `core.UpdateChecker.check`: any exception from `apt.check_updates` is
caught and turned into an empty `UpdateResult` for the configured
distribution. -/
def coreCheck (ups : List Package) (env : AptEnv) (distribution : String) : UpdateResult :=
  match aptCheckUpdates ups env with
  | .ok ps => ⟨ps, env.now, distribution⟩
  | .error _ => ⟨[], env.now, distribution⟩

/-! ### The result cache (`UpdateChecker._save_result` /
`UpdateChecker._load_cached_result`)

The cache file holds `json.dumps(result.model_dump(mode="json"))`; loading
validates with `UpdateResult.model_validate_json`.  The JSON document is
modelled structurally. -/

inductive JValue where
  | null
  | bool (b : Bool)
  | num (n : Int)
  | str (s : String)
  | arr (elems : List JValue)
  | obj (fields : List (String × JValue))

/-- Field lookup in a JSON object. -/
def jGet (fields : List (String × JValue)) (k : String) : Option JValue :=
  (fields.find? (fun e => e.1 == k)).map (fun e => e.2)

/-- `model_dump(mode="json")` of one `Package`. -/
def encodePackage (p : Package) : JValue :=
  .obj [("name", .str p.name),
        ("current_version", match p.current_version with | some v => .str v | none => .null),
        ("new_version", .str p.new_version),
        ("size", .num p.size)]

/-- Pydantic validation of one `Package` object: `name` and `new_version`
are required strings, `current_version` is a required nullable string,
`size` defaults to 0; unknown fields are ignored and wrong shapes fail. -/
def decodePackage (j : JValue) : Option Package :=
  match j with
  | .obj fields =>
    match jGet fields "name", jGet fields "current_version", jGet fields "new_version" with
    | some (.str n), some cv, some (.str nv) =>
      let cur? : Option (Option String) :=
        match cv with
        | .null => some none
        | .str v => some (some v)
        | _ => none
      let size? : Option Int :=
        match jGet fields "size" with
        | none => some 0
        | some (.num i) => some i
        | some _ => none
      match cur?, size? with
      | some cur, some size => some ⟨n, cur, nv, size⟩
      | _, _ => none
    | _, _, _ => none
  | _ => none

/-- Decode a JSON array of packages; any bad element fails the whole list. -/
def decodePackages : List JValue → Option (List Package)
  | [] => some []
  | x :: xs =>
    match decodePackage x, decodePackages xs with
    | some p, some ps => some (p :: ps)
    | _, _ => none

/-- `model_dump(mode="json")` of an `UpdateResult` (the datetime rendered
losslessly, see `UpdateResult`). -/
def encodeUpdateResult (r : UpdateResult) : JValue :=
  .obj [("packages", .arr (r.packages.map encodePackage)),
        ("checked_at", .num r.checked_at),
        ("distribution", .str r.distribution)]

/-- Pydantic validation of an `UpdateResult` document: `packages` defaults
to `[]`, `checked_at` defaults to `datetime.now()` (the `now` argument),
and `distribution` — a plain `str` field on `models.UpdateResult` —
defaults to `"stable"` and otherwise accepts any string as-is. -/
def decodeUpdateResult (now : Int) (j : JValue) : Option UpdateResult :=
  match j with
  | .obj fields =>
    let pkgs? : Option (List Package) :=
      match jGet fields "packages" with
      | none => some []
      | some (.arr xs) => decodePackages xs
      | some _ => none
    let ca? : Option Int :=
      match jGet fields "checked_at" with
      | none => some now
      | some (.num i) => some i
      | some _ => none
    let dist? : Option String :=
      match jGet fields "distribution" with
      | none => some "stable"
      | some (.str s) => some s
      | some _ => none
    match pkgs?, ca?, dist? with
    | some ps, some ca, some dist => some ⟨ps, ca, dist⟩
    | _, _, _ => none
  | _ => none

/-- The cache directory state seen by `_save_result` and
`_load_cached_result`: the content of `last_check.json` when it exists,
and whether writing it raises (`OSError` etc.). -/
structure CacheEnv where
  cacheFile : Option JValue
  writeFails : Bool
  now : Int

/-- `UpdateChecker._save_result`: write the serialized result; any
exception is logged and swallowed, leaving the file as it was. -/
def saveResult (r : UpdateResult) (env : CacheEnv) : CacheEnv :=
  if env.writeFails then env
  else { env with cacheFile := some (encodeUpdateResult r) }

/-- `UpdateChecker._load_cached_result`: `None` when the file is missing;
parse/validation failures are logged and also yield `None`. -/
def loadCachedResult (env : CacheEnv) : Option UpdateResult :=
  match env.cacheFile with
  | none => none
  | some j => decodeUpdateResult env.now j

/-! ### Concrete fixtures used by the theorems below -/

/-- Default configuration: distribution `stable`, new packages allowed, no
curated bundle, no `apt_source_file`. -/
def fixCfg : Config := ⟨"stable", true, [], none⟩

/-- Configuration with `apt_source_file` set (the isolated-cache mode the
tests configure). -/
def fixCfgIso : Config := ⟨"stable", true, [], some "sources.list.d/pamir-ai.list"⟩

/-- Configuration with a curated bundle of two names. -/
def fixCfgBundle : Config := ⟨"stable", true, ["zed-tool", "abc-tool"], none⟩

/-- A checker environment in which every external query fails and the
upgradable list is empty. -/
def fixEnvQuiet : CheckerEnv :=
  { updateOk := true
    listOut := ""
    listCode := 0
    dpkgOut := fun _ => ""
    dpkgCode := fun _ => 1
    policyOut := fun _ => ""
    policyCode := fun _ => 1
    showOut := fun _ => ""
    showCode := fun _ => 1
    now := 0 }

/-- The single upgradable line of the spec's parsing example, with the
lowercase name `pkga`. -/
def fixEnvPkga : CheckerEnv :=
  { fixEnvQuiet with
    listOut := "pkga/stable 2.0 amd64 [upgradable from: 1.0]\n" }

/-- The single upgradable line exactly as the spec writes it, with the
uppercase letter in `pkgA`. -/
def fixEnvPkgA : CheckerEnv :=
  { fixEnvQuiet with
    listOut := "pkgA/stable 2.0 amd64 [upgradable from: 1.0]\n" }

/-- A richer environment: three upgradable lines across distributions, a
working batched size query, and candidate versions for the curated bundle
names of `fixCfgBundle`. -/
def fixEnvRich : CheckerEnv :=
  { fixEnvQuiet with
    listOut := "Listing...\npackage1/stable 2.0 amd64 [upgradable from: 1.0]\npackage2/testing 3.0 amd64 [upgradable from: 2.0]\npackage3/unstable 4.0 amd64 [upgradable from: 3.0]\n"
    policyOut := fun n =>
      if n = "zed-tool" then "zed-tool:\n  Installed: (none)\n  Candidate: 9.1\n"
      else "abc-tool:\n  Installed: (none)\n  Candidate: 0.5\n"
    policyCode := fun _ => 0
    showOut := fun _ => "Package: package1\nSize: 1024\n"
    showCode := fun _ => 0 }

/-- The plan `checkUpdates fixCfgBundle fixEnvRich` computes: the `stable`
upgrade first, then the curated installs in alphabetical order. -/
def fixRichPlan : List Package :=
  [⟨"package1", some "1.0", "2.0", 1024⟩,
   ⟨"abc-tool", none, "0.5", 0⟩,
   ⟨"zed-tool", none, "9.1", 0⟩]

/-- Rebuild scenario for `apt.py`: no version upgrades; `distiller-foo`
1.0 is installed with locally resolved checksum `aaaa` while the
repository index lists version 1.0 with checksum `bbbb`. -/
def fixAptRebuild : AptEnv :=
  { repoChecksums := [("distiller-foo", [("1.0", "bbbb")])]
    installedPamir := [("distiller-foo", "1.0")]
    installedChecksum := fun _ => some "aaaa"
    pkgSize := fun _ _ => 0
    now := 0 }

/-- The same scenario with equal checksums (`C1 == C2`). -/
def fixAptEqual : AptEnv :=
  { fixAptRebuild with installedChecksum := fun _ => some "bbbb" }

/-! ## Theorems -/

/-- C1 (code evaluation at the failing input): with no version upgrades,
`distiller-foo` installed at 1.0, and the repository listing 1.0 with a
different checksum, the rebuild loop does append a same-version action,
but the action cannot carry `update_type="rebuild"` (Pydantic drops the
undeclared field) and the following `pkg.update_type` read raises
`AttributeError`, so `core.check` returns an empty plan: no action for the
package survives.  With equal checksums no action is produced, as the
claim also states. -/
theorem spec_c1_rebuild_action_lost :
    addRebuilds [] fixAptRebuild = [⟨"distiller-foo", some "1.0", "1.0", 0⟩]
    ∧ aptCheckUpdates [] fixAptRebuild = .error .attrUpdateType
    ∧ (coreCheck [] fixAptRebuild "stable").packages = []
    ∧ aptCheckUpdates [] fixAptEqual = .ok [] :=
  ⟨rfl, rfl, rfl, rfl⟩

/-- C2: when the host-wide lock is already held, `apply` returns
`{ok: false, rc: 1, error: "Another update is running"}` immediately and
executes no package-manager command at all. -/
theorem spec_c2_lock_contention (u g i : Int) (o : String → String)
    (c : String → Int) (actions : List Package) :
    applyFn ⟨true, u, g, i, o, c⟩ actions =
      (⟨false, 1, some "Another update is running", []⟩, []) :=
  rfl

/-- C5 counterexample: the claim admits the single-character name `"a"`
(its first character is in the `[a-z0-9]` class), but the validator
rejects it: `VALID_PACKAGE_NAME` requires at least two characters. -/
theorem spec_c5_counterexample :
    validatePackageName "a" = none ∧ lowerAlnum 'a' = true ∧ ("a").length = 1 := by
  refine ⟨rfl, rfl, rfl⟩

/-- C6 counterexample: parsing the spec's exact line
`"pkgA/stable 2.0 amd64 [upgradable from: 1.0]"` with target distribution
`stable` yields no package at all: the name `pkgA` contains an uppercase
letter and fails `_validate_package_name`, so the line is skipped. -/
theorem spec_c6_counterexample :
    checkUpdates fixCfg fixEnvPkgA = .ok [] :=
  rfl

/-- C6 (amended): with the lowercase name, parsing the single line
`"pkga/stable 2.0 amd64 [upgradable from: 1.0]"` with target distribution
`stable` yields exactly one package, named `pkga`, with current version
`1.0` and new version `2.0`. -/
theorem spec_c6_parse_single_line :
    checkUpdates fixCfg fixEnvPkga = .ok [⟨"pkga", some "1.0", "2.0", 0⟩] :=
  rfl

/-- C4 counterexample: the synchronous planning path does surface an
unhandled exception: with `apt_source_file` configured,
`check_updates` raises `AttributeError` (there is no
`Config.apt_cache_dir` field for `_get_apt_cache_options` to read) and
`check` logs and re-raises it to its caller. -/
theorem spec_c4_counterexample :
    checkerCheck fixCfgIso fixEnvQuiet = .error .attrAptCacheDir :=
  rfl

/-- C4 (amended): with `apt_source_file` unset, the synchronous planning
path never raises: for every oracle environment `check` returns a result,
and a failing `apt list` command degrades to an empty package list rather
than an exception.  (The async `core.check` returns an empty result on any
exception by construction of `coreCheck`.) -/
theorem spec_c4_planning_no_raise (cfg : Config) (env : CheckerEnv)
    (h : cfg.apt_source_file = none) :
    checkerCheck cfg env = .ok ⟨checkUpdatesCore cfg env, env.now, cfg.distribution⟩
    ∧ (env.listCode ≠ 0 →
        checkerCheck cfg env = .ok ⟨[], env.now, cfg.distribution⟩) := by
  have hs : truthyOpt cfg.apt_source_file = false := by rw [h]; rfl
  constructor
  · simp [checkerCheck, checkUpdates, hs]
  · intro hcode
    simp [checkerCheck, checkUpdates, hs, checkUpdatesCore, hcode]

/-- Witness for C4 (amended), at the quiet environment. -/
theorem spec_c4_planning_no_raise_witness :
    checkerCheck fixCfg fixEnvQuiet =
      .ok ⟨checkUpdatesCore fixCfg fixEnvQuiet, fixEnvQuiet.now, fixCfg.distribution⟩ :=
  (spec_c4_planning_no_raise fixCfg fixEnvQuiet rfl).1

/-- C3: with the lock free, `apply` verifies every action: the `results`
list is exactly one entry per action, in order, recording the re-queried
installed version against the requested one; every action's entry is
present, and any mismatch forces `ok = false`. -/
theorem spec_c3_apply_verification (u g i : Int) (o : String → String)
    (c : String → Int) (actions : List Package) :
    ((applyFn ⟨false, u, g, i, o, c⟩ actions).1).results =
      actions.map (fun p =>
        ⟨p.name, installedAfter ⟨false, u, g, i, o, c⟩ p.name, p.new_version⟩)
    ∧ (∀ p ∈ actions,
        (⟨p.name, installedAfter ⟨false, u, g, i, o, c⟩ p.name, p.new_version⟩ : VerifyEntry) ∈
          ((applyFn ⟨false, u, g, i, o, c⟩ actions).1).results)
    ∧ ((∃ p ∈ actions,
          installedAfter ⟨false, u, g, i, o, c⟩ p.name ≠ some p.new_version) →
        ((applyFn ⟨false, u, g, i, o, c⟩ actions).1).ok = false) := by
  refine ⟨rfl, ?_, ?_⟩
  · intro p hp
    exact List.mem_map_of_mem _ hp
  · rintro ⟨p, hp, hne⟩
    have hok : ((applyFn ⟨false, u, g, i, o, c⟩ actions).1).ok =
        (actions.map (fun p =>
          (⟨p.name, installedAfter ⟨false, u, g, i, o, c⟩ p.name, p.new_version⟩ : VerifyEntry))).all
          (fun e => e.installed == some e.expected) := rfl
    rw [hok]
    apply Bool.eq_false_iff.mpr
    intro hall
    rw [List.all_eq_true] at hall
    have := hall _ (List.mem_map_of_mem _ hp)
    simp only [beq_iff_eq] at this
    exact hne this

/-- Witness for C3: a single action whose post-install query fails, so the
installed version (`None`) differs from the requested one and the apply is
marked failed. -/
theorem spec_c3_apply_verification_witness :
    ((applyFn ⟨false, 0, 0, 0, fun _ => "", fun _ => 1⟩ [⟨"x", some "1", "2", 0⟩]).1).ok = false :=
  (spec_c3_apply_verification 0 0 0 (fun _ => "") (fun _ => 1) [⟨"x", some "1", "2", 0⟩]).2.2
    ⟨⟨"x", some "1", "2", 0⟩, List.mem_singleton.mpr rfl, by decide⟩

/-- Decoding inverts encoding for a single package. -/
theorem decodePackage_encodePackage (p : Package) :
    decodePackage (encodePackage p) = some p := by
  obtain ⟨n, cv, nv, sz⟩ := p
  cases cv <;> rfl

/-- Decoding inverts encoding for a package list. -/
theorem decodePackages_map_encodePackage (ps : List Package) :
    decodePackages (ps.map encodePackage) = some ps := by
  induction ps with
  | nil => rfl
  | cons p ps ih =>
    simp only [List.map_cons, decodePackages, decodePackage_encodePackage p, ih]

/-- Decoding inverts encoding for every result. -/
theorem decodeUpdateResult_encodeUpdateResult (now : Int) (r : UpdateResult) :
    decodeUpdateResult now (encodeUpdateResult r) = some r := by
  obtain ⟨ps, ca, dist⟩ := r
  have hj : decodeUpdateResult now (encodeUpdateResult ⟨ps, ca, dist⟩) =
      (match decodePackages (ps.map encodePackage), some ca, some dist with
        | some p, some c, some d => some (⟨p, c, d⟩ : UpdateResult)
        | _, _, _ => none) := rfl
  rw [hj, decodePackages_map_encodePackage]

/-- C8: for every `UpdateResult`, saving it and loading it back returns
it unchanged (packages, timestamp and distribution); a missing cache file
loads as `None`; a corrupt cache document loads as `None`; and a failing
save is swallowed, leaving the cache as it was. -/
theorem spec_c8_cache_round_trip (r : UpdateResult) (f : Option JValue)
    (w : Bool) (t : Int) :
    loadCachedResult (saveResult r ⟨f, false, t⟩) = some r
    ∧ loadCachedResult ⟨none, w, t⟩ = none
    ∧ loadCachedResult ⟨some (JValue.str "corrupt"), w, t⟩ = none
    ∧ saveResult r ⟨f, true, t⟩ = ⟨f, true, t⟩ := by
  refine ⟨?_, rfl, rfl, rfl⟩
  show decodeUpdateResult t (encodeUpdateResult r) = some r
  exact decodeUpdateResult_encodeUpdateResult t r

/-- Witness for C8 at a concrete result and an initially missing cache. -/
theorem spec_c8_cache_round_trip_witness :
    loadCachedResult
        (saveResult ⟨[⟨"a", none, "1", 3⟩], 42, "stable"⟩ ⟨none, false, 7⟩) =
      some ⟨[⟨"a", none, "1", 3⟩], 42, "stable"⟩ :=
  (spec_c8_cache_round_trip ⟨[⟨"a", none, "1", 3⟩], 42, "stable"⟩ none false 7).1

/-- A string is empty exactly when its character list is. -/
theorem string_eq_empty_iff (t : String) : t = "" ↔ t.data = [] := by
  constructor
  · intro h; rw [h]
  · intro h
    cases t with
    | mk d => cases h; rfl

/-- C5 (amended): `_validate_package_name` strips surrounding whitespace
and then accepts exactly the strings of length 2 to 255 whose first
character is a lowercase alphanumeric and whose remaining characters (at
least one) are lowercase alphanumerics or `+`, `-`, `.`; in particular
single-character names, the empty string, and strings with uppercase
letters, interior spaces, or underscores are rejected. -/
theorem spec_c5_validator_grammar (s : String) :
    (validatePackageName s).isSome = true ↔
      2 ≤ (pyStrip s).length ∧ (pyStrip s).length ≤ 255 ∧
      ∃ c cs, (pyStrip s).data = c :: cs ∧ lowerAlnum c = true ∧
        ∀ d ∈ cs, nameTailChar d = true := by
  unfold validatePackageName
  constructor
  · intro h
    by_cases hP : (pyStrip s = "" ∨ (pyStrip s).length > 255 ∨
        ¬(validPackageName (pyStrip s) = true))
    · rw [if_pos hP] at h
      simp at h
    · push_neg at hP
      obtain ⟨hne, hlen, hvalid⟩ := hP
      unfold validPackageName at hvalid
      rcases htd : (pyStrip s).data with _ | ⟨c, cs⟩
      · exact absurd ((string_eq_empty_iff _).mpr htd) hne
      · rw [htd] at hvalid
        simp only [Bool.and_eq_true, Bool.not_eq_true', List.all_eq_true] at hvalid
        obtain ⟨⟨hc, hcs⟩, hall⟩ := hvalid
        have hlen2 : (pyStrip s).length = cs.length + 1 := by
          show (pyStrip s).data.length = cs.length + 1
          rw [htd]; rfl
        refine ⟨?_, hlen, c, cs, rfl, hc, hall⟩
        rw [hlen2]
        have : cs ≠ [] := by
          intro hnil; rw [hnil] at hcs; exact absurd hcs (by decide)
        have := List.length_pos.mpr this
        omega
  · rintro ⟨h2, h255, c, cs, hdata, hc, hall⟩
    have hlen2 : (pyStrip s).length = cs.length + 1 := by
      show (pyStrip s).data.length = cs.length + 1
      rw [hdata]; rfl
    have hcsne : cs.isEmpty = false := by
      cases cs with
      | nil =>
        rw [hlen2] at h2
        simp at h2
      | cons a l => rfl
    have hvalid : validPackageName (pyStrip s) = true := by
      unfold validPackageName
      rw [hdata]
      simp only [Bool.and_eq_true, Bool.not_eq_true', List.all_eq_true]
      exact ⟨⟨hc, hcsne⟩, hall⟩
    rw [if_neg]
    · rfl
    · push_neg
      refine ⟨?_, by omega, by rw [hvalid]⟩
      intro hempty
      rw [(string_eq_empty_iff _).mp hempty] at hdata
      exact absurd hdata (by simp)

/-- Every entry `parseLine` produces is keyed by its package's name and is
an upgrade: its current version is present. -/
theorem parseLine_ok {cfg : Config} {line : String} {kp : String × Package}
    (h : parseLine cfg line = some kp) :
    kp.2.name = kp.1 ∧ kp.2.current_version ≠ none := by
  simp only [parseLine] at h
  repeat' split at h
  all_goals first
    | (rw [Option.some.injEq] at h
       subst h
       exact ⟨rfl, by simp⟩)
    | exact absurd h (by simp)

/-- A key that `dictHas` does not find is not among the dict's keys. -/
theorem dictHas_false_not_mem {d : List (String × Package)} {k : String}
    (h : dictHas d k = false) : k ∉ d.map (fun e => e.1) := by
  intro hmem
  rw [List.mem_map] at hmem
  obtain ⟨e, he, hk⟩ := hmem
  unfold dictHas at h
  rw [List.any_eq_false] at h
  have := h e he
  simp only [beq_iff_eq] at this
  exact this hk

/-- One parse-loop iteration preserves the dict invariants: distinct keys,
each entry keyed by its package's name, every entry an upgrade. -/
theorem parseStep_inv (cfg : Config) (d : List (String × Package)) (line : String)
    (h1 : (d.map (fun e => e.1)).Nodup)
    (h2 : ∀ e ∈ d, e.2.name = e.1 ∧ e.2.current_version ≠ none) :
    ((parseStep cfg d line).map (fun e => e.1)).Nodup
    ∧ ∀ e ∈ parseStep cfg d line, e.2.name = e.1 ∧ e.2.current_version ≠ none := by
  unfold parseStep
  split
  · next kp hpl =>
    split
    · exact ⟨h1, h2⟩
    · next hh =>
      have hh' : dictHas d kp.1 = false := by
        revert hh; cases dictHas d kp.1 <;> simp
      constructor
      · rw [List.map_append, List.nodup_append]
        refine ⟨h1, List.nodup_singleton _, ?_⟩
        intro a ha hb
        simp only [List.map_cons, List.map_nil, List.mem_singleton] at hb
        subst hb
        exact dictHas_false_not_mem hh' ha
      · intro e he
        rcases List.mem_append.mp he with he | he
        · exact h2 e he
        · rw [List.mem_singleton] at he
          subst he
          exact parseLine_ok hpl
  · exact ⟨h1, h2⟩

/-- The dict built by the parse loop has distinct keys, each entry keyed by
its package's name, and only upgrades. -/
theorem parseUpgradable_inv (cfg : Config) (lines : List String) :
    ((parseUpgradable cfg lines).map (fun e => e.1)).Nodup
    ∧ ∀ e ∈ parseUpgradable cfg lines, e.2.name = e.1 ∧ e.2.current_version ≠ none := by
  unfold parseUpgradable
  have main : ∀ (ls : List String) (d : List (String × Package)),
      (d.map (fun e => e.1)).Nodup →
      (∀ e ∈ d, e.2.name = e.1 ∧ e.2.current_version ≠ none) →
      ((ls.foldl (parseStep cfg) d).map (fun e => e.1)).Nodup
      ∧ ∀ e ∈ ls.foldl (parseStep cfg) d, e.2.name = e.1 ∧ e.2.current_version ≠ none := by
    intro ls
    induction ls with
    | nil => intro d h1 h2; exact ⟨h1, h2⟩
    | cons line rest ih =>
      intro d h1 h2
      rw [List.foldl_cons]
      exact ih _ (parseStep_inv cfg d line h1 h2).1 (parseStep_inv cfg d line h1 h2).2
  exact main lines [] List.nodup_nil (by simp)

/-- One curated-loop iteration preserves the dict invariants and the
provenance of install entries: an install entry's key is absent from the
base dict `d0` and its version is a truthy candidate version. -/
theorem curatedStep_inv (env : CheckerEnv) (d0 d : List (String × Package)) (name : String)
    (h1 : (d.map (fun e => e.1)).Nodup)
    (hsub : ∀ k ∈ d0.map (fun e => e.1), k ∈ d.map (fun e => e.1))
    (h2 : ∀ e ∈ d, e.2.name = e.1)
    (h3 : ∀ e ∈ d, e.2.current_version = none →
        e.1 ∉ d0.map (fun e => e.1)
        ∧ ∃ cand, candidateVersion env e.1 = some cand ∧ e.2.new_version = cand ∧ cand ≠ "") :
    ((curatedStep env d name).map (fun e => e.1)).Nodup
    ∧ (∀ k ∈ d0.map (fun e => e.1), k ∈ (curatedStep env d name).map (fun e => e.1))
    ∧ (∀ e ∈ curatedStep env d name, e.2.name = e.1)
    ∧ ∀ e ∈ curatedStep env d name, e.2.current_version = none →
        e.1 ∉ d0.map (fun e => e.1)
        ∧ ∃ cand, candidateVersion env e.1 = some cand ∧ e.2.new_version = cand ∧ cand ≠ "" := by
  unfold curatedStep
  split
  · exact ⟨h1, hsub, h2, h3⟩
  · next hh =>
    have hh' : dictHas d name = false := by
      revert hh; cases dictHas d name <;> simp
    split
    · exact ⟨h1, hsub, h2, h3⟩
    · split
      · next cand hcand =>
        split
        · next hne =>
          have hnotmem : name ∉ d.map (fun e => e.1) := dictHas_false_not_mem hh'
          refine ⟨?_, ?_, ?_, ?_⟩
          · rw [List.map_append, List.nodup_append]
            refine ⟨h1, List.nodup_singleton _, ?_⟩
            intro a ha hb
            simp only [List.map_cons, List.map_nil, List.mem_singleton] at hb
            subst hb
            exact hnotmem ha
          · intro k hk
            rw [List.map_append, List.mem_append]
            exact Or.inl (hsub k hk)
          · intro e he
            rcases List.mem_append.mp he with he | he
            · exact h2 e he
            · rw [List.mem_singleton] at he
              subst he
              rfl
          · intro e he hcv
            rcases List.mem_append.mp he with he | he
            · exact h3 e he hcv
            · rw [List.mem_singleton] at he
              subst he
              exact ⟨fun hk => hnotmem (hsub _ hk), cand, hcand, rfl, hne⟩
        · exact ⟨h1, hsub, h2, h3⟩
      · exact ⟨h1, hsub, h2, h3⟩

/-- The curated loop preserves the dict invariants and stamps every install
entry with its provenance. -/
theorem addCurated_inv (cfg : Config) (env : CheckerEnv) (d0 : List (String × Package))
    (h1 : (d0.map (fun e => e.1)).Nodup)
    (h2 : ∀ e ∈ d0, e.2.name = e.1 ∧ e.2.current_version ≠ none) :
    ((addCurated cfg env d0).map (fun e => e.1)).Nodup
    ∧ (∀ e ∈ addCurated cfg env d0, e.2.name = e.1)
    ∧ ∀ e ∈ addCurated cfg env d0, e.2.current_version = none →
        e.1 ∉ d0.map (fun e => e.1)
        ∧ ∃ cand, candidateVersion env e.1 = some cand ∧ e.2.new_version = cand ∧ cand ≠ "" := by
  unfold addCurated
  split
  · have main : ∀ (names : List String) (d : List (String × Package)),
        (d.map (fun e => e.1)).Nodup →
        (∀ k ∈ d0.map (fun e => e.1), k ∈ d.map (fun e => e.1)) →
        (∀ e ∈ d, e.2.name = e.1) →
        (∀ e ∈ d, e.2.current_version = none →
          e.1 ∉ d0.map (fun e => e.1)
          ∧ ∃ cand, candidateVersion env e.1 = some cand ∧ e.2.new_version = cand ∧ cand ≠ "") →
        ((names.foldl (curatedStep env) d).map (fun e => e.1)).Nodup
        ∧ (∀ e ∈ names.foldl (curatedStep env) d, e.2.name = e.1)
        ∧ ∀ e ∈ names.foldl (curatedStep env) d, e.2.current_version = none →
            e.1 ∉ d0.map (fun e => e.1)
            ∧ ∃ cand, candidateVersion env e.1 = some cand ∧ e.2.new_version = cand ∧ cand ≠ "" := by
      intro names
      induction names with
      | nil => intro d a b c e; exact ⟨a, c, e⟩
      | cons name rest ih =>
        intro d a b c e
        rw [List.foldl_cons]
        obtain ⟨a2, b2, c2, e2⟩ := curatedStep_inv env d0 d name a b c e
        exact ih _ a2 b2 c2 e2
    exact main cfg.bundle_default d0 h1 (fun k hk => hk) (fun e he => (h2 e he).1)
      (fun e he hcv => absurd hcv (h2 e he).2)
  · exact ⟨h1, fun e he => (h2 e he).1, fun e he hcv => absurd hcv (h2 e he).2⟩

/-- The values of a dict whose entries are keyed by their names have the
keys as their name list. -/
theorem values_names (d : List (String × Package))
    (h : ∀ e ∈ d, e.2.name = e.1) :
    (d.map (fun e => e.2)).map Package.name = d.map (fun e => e.1) := by
  induction d with
  | nil => rfl
  | cons e rest ih =>
    simp only [List.map_cons]
    rw [h e (List.mem_cons_self e rest), ih (fun x hx => h x (List.mem_cons_of_mem _ hx))]

/-- The sorted plan is a permutation of the dict values. -/
theorem planPackages_perm (cfg : Config) (env : CheckerEnv) :
    (planPackages cfg env).Perm
      ((addCurated cfg env (parseUpgradable cfg (pySplitlines env.listOut))).map
        (fun e => e.2)) :=
  List.perm_insertionSort pkgLe _

/-- Names in the plan `check_updates` returns are pairwise distinct, and
every install action in the plan comes from the curated loop: its name is
not among the parsed upgrade keys and its version is a truthy candidate
version. -/
theorem checkUpdatesCore_names (cfg : Config) (env : CheckerEnv) :
    ((checkUpdatesCore cfg env).map Package.name).Nodup
    ∧ ∀ p ∈ checkUpdatesCore cfg env, p.current_version = none →
        p.name ∉ (parseUpgradable cfg (pySplitlines env.listOut)).map (fun e => e.1)
        ∧ ∃ cand, candidateVersion env p.name = some cand ∧
            p.new_version = cand ∧ cand ≠ "" := by
  obtain ⟨hp1, hp2⟩ := parseUpgradable_inv cfg (pySplitlines env.listOut)
  obtain ⟨hc1, hc2, hc3⟩ :=
    addCurated_inv cfg env (parseUpgradable cfg (pySplitlines env.listOut)) hp1 hp2
  have hperm := planPackages_perm cfg env
  have hnames : ((planPackages cfg env).map Package.name).Nodup := by
    have hpn := hperm.map Package.name
    rw [hpn.nodup_iff, values_names _ hc2]
    exact hc1
  have hmem : ∀ p ∈ planPackages cfg env, p.current_version = none →
      p.name ∉ (parseUpgradable cfg (pySplitlines env.listOut)).map (fun e => e.1)
      ∧ ∃ cand, candidateVersion env p.name = some cand ∧
          p.new_version = cand ∧ cand ≠ "" := by
    intro p hp hcv
    have hp' := hperm.mem_iff.mp hp
    rw [List.mem_map] at hp'
    obtain ⟨e, he, hpe⟩ := hp'
    subst hpe
    rw [hc2 e he]
    exact hc3 e he hcv
  unfold checkUpdatesCore
  split
  · simp
  · split
    · exact ⟨hnames, hmem⟩
    · constructor
      · rw [List.map_map]
        exact hnames
      · intro p hp hcv
        rw [List.mem_map] at hp
        obtain ⟨q, hq, hqp⟩ := hp
        subst hqp
        exact hmem q hq hcv

/-- The plan `check_updates` returns is sorted by the key
`(current_version is None, name)`: upgrades before new installs,
alphabetical within each group.  The size patch does not disturb the
order, since the key ignores sizes. -/
theorem checkUpdatesCore_sorted (cfg : Config) (env : CheckerEnv) :
    List.Pairwise pkgLe (checkUpdatesCore cfg env) := by
  unfold checkUpdatesCore
  split
  · exact List.Pairwise.nil
  · split
    · exact List.sorted_insertionSort pkgLe _
    · exact List.Pairwise.map _ (fun a b h => h) (List.sorted_insertionSort pkgLe _)

/-- C7: the plan is a pure function of its oracle inputs — computing it
twice from the same `apt list` text and the same installed, candidate and
size query answers yields structurally equal lists — and every plan it
returns is ordered by the key `(current_version is None, name)`: new
installs grouped after upgrades, alphabetically by name within each
group. -/
theorem spec_c7_plan_determinism_order (cfg : Config) (env : CheckerEnv) :
    checkUpdates cfg env = checkUpdates cfg env
    ∧ ∀ ps, checkUpdates cfg env = .ok ps → List.Pairwise pkgLe ps := by
  refine ⟨rfl, ?_⟩
  intro ps hps
  unfold checkUpdates at hps
  split at hps
  · exact absurd hps (by simp)
  · rw [Except.ok.injEq] at hps
    subst hps
    exact checkUpdatesCore_sorted cfg env

/-- Witness for C7: the plan of the rich fixture is sorted — the upgrade
comes first, then the installs in alphabetical order. -/
theorem spec_c7_plan_determinism_order_witness :
    List.Pairwise pkgLe fixRichPlan :=
  (spec_c7_plan_determinism_order fixCfgBundle fixEnvRich).2 fixRichPlan rfl

/-- A name that the membership scan of the rebuild loop does not find is
not among the list's package names. -/
theorem any_name_false_not_mem {pk : List Package} {k : String}
    (h : pk.any (fun p => p.name == k) = false) : k ∉ pk.map Package.name := by
  intro hmem
  rw [List.mem_map] at hmem
  obtain ⟨p, hp, hk⟩ := hmem
  rw [List.any_eq_false] at h
  have := h p hp
  simp only [beq_iff_eq] at this
  exact this hk

/-- One rebuild-loop iteration preserves: the upgrade list is contained in
the accumulator, every accumulated action is an upgrade or has a name
outside the upgrade list, and name-distinctness is preserved. -/
theorem rebuildStep_inv (env : AptEnv) (ups pk : List Package) (ip : String × String)
    (hsub : ∀ u ∈ ups, u ∈ pk)
    (halt : ∀ p ∈ pk, p ∈ ups ∨ p.name ∉ ups.map Package.name)
    (hnd : (ups.map Package.name).Nodup → (pk.map Package.name).Nodup) :
    (∀ u ∈ ups, u ∈ rebuildStep env pk ip)
    ∧ (∀ p ∈ rebuildStep env pk ip, p ∈ ups ∨ p.name ∉ ups.map Package.name)
    ∧ ((ups.map Package.name).Nodup → ((rebuildStep env pk ip).map Package.name).Nodup) := by
  unfold rebuildStep
  split
  · exact ⟨hsub, halt, hnd⟩
  · next hany =>
    have hany' : pk.any (fun p => p.name == ip.1) = false := by
      revert hany; cases pk.any (fun p => p.name == ip.1) <;> simp
    have hfresh : ip.1 ∉ pk.map Package.name := any_name_false_not_mem hany'
    have hupsnames : ∀ k ∈ ups.map Package.name, k ∈ pk.map Package.name := by
      intro k hk
      rw [List.mem_map] at hk ⊢
      obtain ⟨u, hu, hku⟩ := hk
      exact ⟨u, hsub u hu, hku⟩
    split
    · exact ⟨hsub, halt, hnd⟩
    · split
      · exact ⟨hsub, halt, hnd⟩
      · split
        · exact ⟨hsub, halt, hnd⟩
        · split
          · refine ⟨?_, ?_, ?_⟩
            · intro u hu
              exact List.mem_append.mpr (Or.inl (hsub u hu))
            · intro p hp
              rcases List.mem_append.mp hp with hp | hp
              · exact halt p hp
              · rw [List.mem_singleton] at hp
                subst hp
                exact Or.inr (fun hk => hfresh (hupsnames _ hk))
            · intro hu
              rw [List.map_append, List.nodup_append]
              refine ⟨hnd hu, List.nodup_singleton _, ?_⟩
              intro a ha hb
              simp only [List.map_cons, List.map_nil, List.mem_singleton] at hb
              subst hb
              exact hfresh ha
          · exact ⟨hsub, halt, hnd⟩

/-- C9: within one plan names are unique, and precedence is respected: an
install action (curated source) is only emitted for a name absent from the
parsed upgrade dict, and — in the async variant — the rebuild loop never
emits an action for a name already in the upgrade list and preserves
name-uniqueness. -/
theorem spec_c9_name_uniqueness_precedence :
    (∀ cfg env ps, checkUpdates cfg env = .ok ps →
      (ps.map Package.name).Nodup
      ∧ ∀ p ∈ ps, p.current_version = none →
          p.name ∉ (parseUpgradable cfg (pySplitlines env.listOut)).map (fun e => e.1))
    ∧ ∀ ups env,
        ((ups.map Package.name).Nodup → ((addRebuilds ups env).map Package.name).Nodup)
        ∧ ∀ p ∈ addRebuilds ups env, p ∉ ups → p.name ∉ ups.map Package.name := by
  constructor
  · intro cfg env ps hps
    unfold checkUpdates at hps
    split at hps
    · exact absurd hps (by simp)
    · rw [Except.ok.injEq] at hps
      subst hps
      obtain ⟨h1, h2⟩ := checkUpdatesCore_names cfg env
      exact ⟨h1, fun p hp hcv => (h2 p hp hcv).1⟩
  · intro ups env
    have main : ∀ (ips : List (String × String)) (pk : List Package),
        (∀ u ∈ ups, u ∈ pk) →
        (∀ p ∈ pk, p ∈ ups ∨ p.name ∉ ups.map Package.name) →
        ((ups.map Package.name).Nodup → (pk.map Package.name).Nodup) →
        (∀ u ∈ ups, u ∈ ips.foldl (rebuildStep env) pk)
        ∧ (∀ p ∈ ips.foldl (rebuildStep env) pk,
            p ∈ ups ∨ p.name ∉ ups.map Package.name)
        ∧ ((ups.map Package.name).Nodup →
            ((ips.foldl (rebuildStep env) pk).map Package.name).Nodup) := by
      intro ips
      induction ips with
      | nil => intro pk a b c; exact ⟨a, b, c⟩
      | cons ip rest ih =>
        intro pk a b c
        rw [List.foldl_cons]
        obtain ⟨a2, b2, c2⟩ := rebuildStep_inv env ups pk ip a b c
        exact ih _ a2 b2 c2
    obtain ⟨_, halt, hnd⟩ := main env.installedPamir ups (fun u hu => hu)
      (fun p hp => Or.inl hp) (fun h => h)
    exact ⟨hnd, fun p hp hnotin => (halt p hp).resolve_left hnotin⟩

/-- Witness for C9: the rich fixture's plan has pairwise-distinct names,
and the rebuild appended for `distiller-foo` is not named after the one
upgradable package. -/
theorem spec_c9_name_uniqueness_precedence_witness :
    ((fixRichPlan.map Package.name).Nodup)
    ∧ ((addRebuilds [⟨"pkg-b", some "1", "2", 0⟩] fixAptRebuild).map Package.name).Nodup :=
  ⟨(spec_c9_name_uniqueness_precedence.1 fixCfgBundle fixEnvRich fixRichPlan rfl).1,
   (spec_c9_name_uniqueness_precedence.2 [⟨"pkg-b", some "1", "2", 0⟩] fixAptRebuild).1
     (by decide)⟩

/-- When no line starts with `Candidate:` (after stripping), the scan
finds nothing. -/
theorem findCandidate_none (lines : List String)
    (h : ∀ l ∈ lines, pyStartswith (pyStrip l) "Candidate:" = false) :
    findCandidate lines = none := by
  induction lines with
  | nil => rfl
  | cons l ls ih =>
    simp only [findCandidate]
    rw [h l (List.mem_cons_self l ls)]
    simp only [Bool.false_eq_true, if_false]
    exact ih (fun x hx => h x (List.mem_cons_of_mem _ hx))

/-- A candidate the scan returns is never the literal `(none)` or
`none`. -/
theorem findCandidate_some_ne (lines : List String) (cand : String)
    (h : findCandidate lines = some cand) :
    cand ≠ "(none)" ∧ cand ≠ "none" := by
  induction lines with
  | nil => simp [findCandidate] at h
  | cons l ls ih =>
    simp only [findCandidate] at h
    split at h
    · split at h
      · exact absurd h (by simp)
      · next hne =>
        rw [Option.some.injEq] at h
        subst h
        push_neg at hne
        exact hne
    · exact ih h

/-- C10: `candidate_version` returns `None` whenever the policy query
fails or its output has no `Candidate:` line, and never returns the
literal `(none)` or `none`; consequently every install action in a plan
carries a concrete candidate version — never empty, `none` or `(none)`. -/
theorem spec_c10_candidate_version_guards :
    (∀ (env : CheckerEnv) name, env.policyCode name ≠ 0 →
      candidateVersion env name = none)
    ∧ (∀ (env : CheckerEnv) name,
        (∀ l ∈ pySplitlines (env.policyOut name),
          pyStartswith (pyStrip l) "Candidate:" = false) →
        candidateVersion env name = none)
    ∧ (∀ (env : CheckerEnv) name cand, candidateVersion env name = some cand →
        cand ≠ "(none)" ∧ cand ≠ "none")
    ∧ ∀ cfg env ps, checkUpdates cfg env = .ok ps →
        ∀ p ∈ ps, p.current_version = none →
          p.new_version ≠ "" ∧ p.new_version ≠ "none" ∧ p.new_version ≠ "(none)" := by
  refine ⟨?_, ?_, ?_, ?_⟩
  · intro env name h
    unfold candidateVersion
    rw [if_pos h]
  · intro env name h
    unfold candidateVersion
    split
    · rfl
    · exact findCandidate_none _ h
  · intro env name cand h
    unfold candidateVersion at h
    split at h
    · exact absurd h (by simp)
    · exact findCandidate_some_ne _ _ h
  · intro cfg env ps hps p hp hcv
    unfold checkUpdates at hps
    split at hps
    · exact absurd hps (by simp)
    · rw [Except.ok.injEq] at hps
      subst hps
      obtain ⟨hnotup, cand, hcand, hver, hne⟩ :=
        (checkUpdatesCore_names cfg env).2 p hp hcv
      have hnn := findCandidate_some_ne _ _ (by
        unfold candidateVersion at hcand
        split at hcand
        · exact absurd hcand (by simp)
        · exact hcand)
      rw [hver]
      exact ⟨hne, hnn.2, hnn.1⟩

/-- Witness for C10: a failing policy query yields no candidate, and the
two install actions of the rich fixture carry the concrete candidate
versions `0.5` and `9.1`. -/
theorem spec_c10_candidate_version_guards_witness :
    candidateVersion fixEnvQuiet "newpkg" = none
    ∧ (⟨"abc-tool", none, "0.5", 0⟩ : Package).new_version ≠ "" :=
  ⟨spec_c10_candidate_version_guards.1 fixEnvQuiet "newpkg" (by decide),
   (spec_c10_candidate_version_guards.2.2.2 fixCfgBundle fixEnvRich fixRichPlan rfl
      ⟨"abc-tool", none, "0.5", 0⟩ (by decide) rfl).1⟩
